import Mathlib

/-!
Shallow embedding of the audit-log drip-delivery service
(src/heroku-app/index.js) and proofs of its specified properties.

The service keeps an in-memory FIFO queue of log records.  An HTTP
endpoint validates a shared-secret token and appends the reversed
batch to the queue tail; a background worker pops the head every
1100 ms, formats it and posts it to a Slack webhook, reinserting the
record at the head when the post throws.

JavaScript values are embedded as follows: a string-valued field that
may be `undefined` becomes `Option String`; JavaScript truthiness of
such a value (`!x`) is `truthyStr`; the `logs` field of the request
body, which may be absent, a non-array value, or an array, becomes
`LogsField`; a thrown `Error` becomes the `failure` constructor of
`PostResult`; the black-box network call `fetch` becomes a function
parameter returning a `FetchResponse`.
-/

namespace DevOpsDream

/-- A log record: the six named string fields the service reads
(`log.Action`, `log.Section`, `log.Display`, `log.CreatedByUser`,
`log.AuditCreatedDate`, `log.DelegateUser`), each possibly absent. -/
structure LogRecord where
  Action : Option String
  Section : Option String
  Display : Option String
  CreatedByUser : Option String
  AuditCreatedDate : Option String
  DelegateUser : Option String
deriving Repr, DecidableEq

/-- JavaScript truthiness of a possibly-absent string: `undefined` and
the empty string are falsy, every other string is truthy. -/
def truthyStr : Option String → Bool
  | none => false
  | some s => s ≠ ""

/-- The `logs` field of the request body as JavaScript sees it:
absent (or otherwise falsy), present but not an array, or an array of
records. Mirrors the check `!logs || !Array.isArray(logs)` in
src/heroku-app/index.js line 48. -/
inductive LogsField where
  | absent
  | notArray
  | array (logs : List LogRecord)
deriving Repr, DecidableEq

/-- Result of one call to the ingest endpoint: HTTP status, response
body, and the message queue after the call. -/
structure IngestResult where
  status : Nat
  body : String
  queue : List LogRecord
deriving Repr, DecidableEq

/-- The `app.post` handler for `/sfdc-audit-log`
(src/heroku-app/index.js lines 34-64), with the environment secret,
the request body fields and the current queue made explicit.
`logs.reverse()` followed by `messageQueue.push(...logsToQueue)`
appends the reversed batch at the tail. -/
def ingest (secret token : Option String) (logs : LogsField)
    (queue : List LogRecord) : IngestResult :=
  if truthyStr secret = false then
    ⟨500, "Server configuration error.", queue⟩
  else if truthyStr token = false ∨ token ≠ secret then
    ⟨401, "Unauthorized: Invalid token.", queue⟩
  else
    match logs with
    | .absent => ⟨202, "Accepted. No logs to process.", queue⟩
    | .notArray => ⟨202, "Accepted. No logs to process.", queue⟩
    | .array l =>
      if l.length = 0 then
        ⟨202, "Accepted. No logs to process.", queue⟩
      else
        ⟨202, "Accepted. Queued " ++ toString l.length ++ " new logs.",
          queue ++ l.reverse⟩

/-- `messageQueue.shift()`: remove and return the head of the queue
(`none` when the queue is empty). -/
def popFront (queue : List LogRecord) : Option LogRecord × List LogRecord :=
  match queue with
  | [] => (none, [])
  | x :: xs => (some x, xs)

/-- Repeated calls to the ingest endpoint with the same arguments,
threading the queue through; used to state idempotence of rejected
requests. -/
def ingestIter (secret token : Option String) (logs : LogsField) :
    Nat → List LogRecord → List LogRecord
  | 0, q => q
  | n + 1, q => ingestIter secret token logs n (ingest secret token logs q).queue

/-- A response from the black-box `fetch` call: HTTP status and body
text. -/
structure FetchResponse where
  status : Nat
  body : String
deriving Repr, DecidableEq

/-- `response.ok` in node-fetch: the status is in the 2xx range. -/
def respOk (r : FetchResponse) : Bool :=
  200 ≤ r.status && r.status < 300

/-- The outbound payload: a JSON object with a single `text` field. -/
structure SlackMessage where
  text : String
deriving Repr, DecidableEq

/-- The JavaScript idiom `v || dflt` for a possibly-absent string
field: the default when `v` is falsy (absent or empty), otherwise the
value itself. -/
def jsOrElse (v : Option String) (dflt : String) : String :=
  match v with
  | none => dflt
  | some s => if s = "" then dflt else s

/-- The message built in `postToSlack` (src/heroku-app/index.js lines
103-110): six `*Label:* value` lines joined by newlines, each value
being the field or the fallback string. -/
def formatMessage (log : LogRecord) : SlackMessage :=
  ⟨"*Action:* " ++ jsOrElse log.Action "N/A" ++ "\n" ++
   "*Section:* " ++ jsOrElse log.Section "N/A" ++ "\n" ++
   "*Display:* " ++ jsOrElse log.Display "N/A" ++ "\n" ++
   "*Created By User:* " ++ jsOrElse log.CreatedByUser "N/A" ++ "\n" ++
   "*Created Date:* " ++ jsOrElse log.AuditCreatedDate "N/A" ++ "\n" ++
   "*Delegate User:* " ++ jsOrElse log.DelegateUser "N/A"⟩

/-- Outcome of `await postToSlack(log)` as seen by the caller: the
promise resolves (no throw) or rejects with a thrown `Error` carrying
a description. -/
inductive PostResult where
  | success
  | failure (description : String)
deriving Repr, DecidableEq

/-- `postToSlack` (src/heroku-app/index.js lines 94-123), with the
webhook configuration and the network `fetch` made explicit.  When
`SLACK_WEBHOOK_URL` is falsy the function returns early without
throwing, so the caller observes success; otherwise the formatted
message is posted and a non-ok response throws
`Slack API error: <status> <body>`. -/
def postToSlack (webhook : Option String)
    (fetchResp : SlackMessage → FetchResponse) (log : LogRecord) : PostResult :=
  if truthyStr webhook = false then
    PostResult.success
  else
    let r := fetchResp (formatMessage log)
    if respOk r then
      PostResult.success
    else
      PostResult.failure ("Slack API error: " ++ toString r.status ++ " " ++ r.body)

/-- Result of one run of `processQueue` up to the `setTimeout`: the
queue afterwards and the record a delivery was attempted for (if
any). -/
structure TickResult where
  queue : List LogRecord
  attempted : Option LogRecord
deriving Repr, DecidableEq

/-- One tick of the worker `processQueue` (src/heroku-app/index.js
lines 68-90): an empty queue is left untouched; otherwise
`messageQueue.shift()` pops the head, delivery is attempted for it,
and a thrown failure triggers `messageQueue.unshift(log)`, restoring
the head. -/
def processQueueTick (deliver : LogRecord → PostResult)
    (queue : List LogRecord) : TickResult :=
  match queue with
  | [] => ⟨[], none⟩
  | log :: rest =>
    match deliver log with
    | .success => ⟨rest, some log⟩
    | .failure _ => ⟨log :: rest, some log⟩

/-- The queue after `n` consecutive worker ticks. -/
def tickIter (deliver : LogRecord → PostResult) :
    Nat → List LogRecord → List LogRecord
  | 0, q => q
  | n + 1, q => tickIter deliver n (processQueueTick deliver q).queue

/-- An event touching the shared queue: an inbound ingest request
(with its credentials and payload) or one worker tick. -/
inductive QueueEvent where
  | ingestEv (secret token : Option String) (logs : LogsField)
  | tickEv

/-- Apply one queue event to the queue. -/
def applyEvent (deliver : LogRecord → PostResult)
    (q : List LogRecord) : QueueEvent → List LogRecord
  | .ingestEv s t l => (ingest s t l q).queue
  | .tickEv => (processQueueTick deliver q).queue

/-- Run a sequence of queue events from an initial queue. -/
def runEvents (deliver : LogRecord → PostResult)
    (q : List LogRecord) : List QueueEvent → List LogRecord
  | [] => q
  | e :: es => runEvents deliver (applyEvent deliver q e) es

/-- The worker throttle delay (src/heroku-app/index.js line 20). -/
def THROTTLE_DELAY_MS : Nat := 1100

/-- Time, in milliseconds, from the start of one `processQueue` run to
the start of the next, as a function of how long the awaited delivery
attempt takes.  Modelled from the control flow of
src/heroku-app/index.js lines 68-90: on an empty queue
`setTimeout(processQueue, THROTTLE_DELAY_MS)` is called immediately;
otherwise it is called only after `await postToSlack(log)` has
settled, i.e. `deliverDuration` milliseconds into the tick, so the
next run starts `deliverDuration + THROTTLE_DELAY_MS` after the
current one.  No timeout in the source bounds `deliverDuration`. -/
def nextTickDelay (queue : List LogRecord) (deliverDuration : Nat) : Nat :=
  match queue with
  | [] => THROTTLE_DELAY_MS
  | _ :: _ => deliverDuration + THROTTLE_DELAY_MS

/-- A sample record used for concrete witnesses. -/
def sampleLog : LogRecord :=
  ⟨some "Export", none, none, some "alice", none, none⟩

/-- A second sample record used for concrete witnesses. -/
def sampleLog2 : LogRecord :=
  ⟨some "Login", none, none, some "bob", none, none⟩

/-- A fetch stub that always answers 200. -/
def okFetch : SlackMessage → FetchResponse := fun _ => ⟨200, "ok"⟩

/-- A fetch stub that always answers 500. -/
def badFetch : SlackMessage → FetchResponse := fun _ => ⟨500, "server error"⟩

/-! Helper lemmas about the ingest handler, shared by several
claims. -/

/-- With a falsy (unset or empty) secret, ingest answers 500 and
leaves the queue alone. -/
theorem ingest_secret_falsy (secret token : Option String) (logs : LogsField)
    (queue : List LogRecord) (h : truthyStr secret = false) :
    ingest secret token logs queue = ⟨500, "Server configuration error.", queue⟩ := by
  simp [ingest, h]

/-- With a truthy secret but a falsy or mismatched token, ingest
answers 401 and leaves the queue alone. -/
theorem ingest_bad_token (secret token : Option String) (logs : LogsField)
    (queue : List LogRecord) (hs : truthyStr secret = true)
    (ht : truthyStr token = false ∨ token ≠ secret) :
    ingest secret token logs queue = ⟨401, "Unauthorized: Invalid token.", queue⟩ := by
  simp only [ingest, hs]
  rw [if_neg (by simp), if_pos ht]

/-- With valid credentials but no usable logs, ingest answers 202 and
leaves the queue alone. -/
theorem ingest_empty_logs (secret token : Option String) (logs : LogsField)
    (queue : List LogRecord) (hs : truthyStr secret = true) (ht : token = secret)
    (hl : logs = .absent ∨ logs = .notArray ∨ logs = .array []) :
    ingest secret token logs queue = ⟨202, "Accepted. No logs to process.", queue⟩ := by
  subst ht
  simp only [ingest, hs]
  rw [if_neg (by simp), if_neg (by simp [hs])]
  rcases hl with h | h | h <;> subst h <;> rfl

/-- With valid credentials and a non-empty batch, ingest answers 202
and appends the reversed batch at the tail. -/
theorem ingest_accepts_batch (secret token : Option String)
    (batch : List LogRecord) (queue : List LogRecord)
    (hs : truthyStr secret = true) (ht : token = secret) (hb : batch ≠ []) :
    ingest secret token (.array batch) queue =
      ⟨202, "Accepted. Queued " ++ toString batch.length ++ " new logs.",
        queue ++ batch.reverse⟩ := by
  subst ht
  simp only [ingest, hs]
  rw [if_neg (by simp), if_neg (by simp [hs])]
  simp [List.length_eq_zero, hb]

/-- Ingest never shortens the queue, whatever the arguments. -/
theorem ingest_queue_monotone (secret token : Option String) (logs : LogsField)
    (queue : List LogRecord) :
    queue.length ≤ (ingest secret token logs queue).queue.length := by
  by_cases hs : truthyStr secret = false
  · rw [ingest_secret_falsy secret token logs queue hs]
  · rw [Bool.not_eq_false] at hs
    by_cases ht : truthyStr token = false ∨ token ≠ secret
    · rw [ingest_bad_token secret token logs queue hs ht]
    · push_neg at ht
      cases logs with
      | absent => rw [ingest_empty_logs secret token _ queue hs ht.2 (Or.inl rfl)]
      | notArray =>
        rw [ingest_empty_logs secret token _ queue hs ht.2 (Or.inr (Or.inl rfl))]
      | array l =>
        cases l with
        | nil =>
          rw [ingest_empty_logs secret token _ queue hs ht.2 (Or.inr (Or.inr rfl))]
        | cons x xs =>
          rw [ingest_accepts_batch secret token (x :: xs) queue hs ht.2 (by simp)]
          simp

/-! Helper lemmas about the worker tick. -/

/-- A tick on an empty queue does nothing. -/
theorem processQueueTick_nil (deliver : LogRecord → PostResult) :
    processQueueTick deliver [] = ⟨[], none⟩ := rfl

/-- A tick whose delivery succeeds removes exactly the head. -/
theorem processQueueTick_success (deliver : LogRecord → PostResult)
    (log : LogRecord) (rest : List LogRecord) (h : deliver log = .success) :
    processQueueTick deliver (log :: rest) = ⟨rest, some log⟩ := by
  simp [processQueueTick, h]

/-- A tick whose delivery throws restores the popped head, leaving the
queue as it was. -/
theorem processQueueTick_failure (deliver : LogRecord → PostResult)
    (log : LogRecord) (rest : List LogRecord) (d : String)
    (h : deliver log = .failure d) :
    processQueueTick deliver (log :: rest) = ⟨log :: rest, some log⟩ := by
  simp [processQueueTick, h]

/-- Under a delivery function that always fails, a tick leaves any
queue exactly as it was. -/
theorem processQueueTick_always_fails (deliver : LogRecord → PostResult)
    (hf : ∀ l : LogRecord, ∃ d, deliver l = .failure d) (q : List LogRecord) :
    (processQueueTick deliver q).queue = q := by
  cases q with
  | nil => rfl
  | cons log rest =>
    obtain ⟨d, hd⟩ := hf log
    rw [processQueueTick_failure deliver log rest d hd]

/-! The claim theorems. -/

/-- C2: for every valid token and non-empty batch, ingest appends
exactly the reversed batch at the queue tail, so the queue length
grows by the batch length, and a batch `[r1, r2, r3]` (newest first)
ingested into an empty queue yields `r3`, `r2`, `r1` on successive
pop-front calls. -/
theorem ingest_appends_reversed_batch (secret token : Option String)
    (batch queue : List LogRecord)
    (hs : truthyStr secret = true) (ht : token = secret) (hb : batch ≠ []) :
    (ingest secret token (.array batch) queue).queue = queue ++ batch.reverse ∧
    (ingest secret token (.array batch) queue).queue.length
      = queue.length + batch.length ∧
    ∀ r1 r2 r3 : LogRecord,
      (popFront (ingest secret token (.array [r1, r2, r3]) []).queue).1 = some r3 ∧
      (popFront
        (popFront (ingest secret token (.array [r1, r2, r3]) []).queue).2).1
        = some r2 ∧
      (popFront (popFront
        (popFront (ingest secret token (.array [r1, r2, r3]) []).queue).2).2).1
        = some r1 := by
  refine ⟨?_, ?_, ?_⟩
  · rw [ingest_accepts_batch secret token batch queue hs ht hb]
  · rw [ingest_accepts_batch secret token batch queue hs ht hb]
    simp
  · intro r1 r2 r3
    rw [ingest_accepts_batch secret token [r1, r2, r3] [] hs ht (by simp)]
    exact ⟨rfl, rfl, rfl⟩

/-- Witness for `ingest_appends_reversed_batch` at the concrete secret
`S3CR3T` and a two-record batch. -/
theorem ingest_appends_reversed_batch_witness :
    truthyStr (some "S3CR3T") = true ∧
    ([sampleLog, sampleLog2] : List LogRecord) ≠ [] ∧
    (ingest (some "S3CR3T") (some "S3CR3T")
        (.array [sampleLog, sampleLog2]) []).queue
      = [] ++ [sampleLog, sampleLog2].reverse :=
  ⟨by decide, by decide,
    (ingest_appends_reversed_batch (some "S3CR3T") (some "S3CR3T")
      [sampleLog, sampleLog2] [] (by decide) rfl (by decide)).1⟩

/-- C4: the ingest outcome is decided by checks in order — falsy
secret gives 500 whatever the token and logs; then a falsy or
mismatched token gives 401 whatever the logs; then an absent,
non-array or empty logs value gives 202 — and none of these outcomes
mutates the queue, even under arbitrarily repeated wrong-token
calls. -/
theorem ingest_outcome_order_no_mutation (secret token : Option String)
    (logs : LogsField) (queue : List LogRecord) :
    (truthyStr secret = false →
      (ingest secret token logs queue).status = 500 ∧
      (ingest secret token logs queue).queue = queue) ∧
    (truthyStr secret = true → (truthyStr token = false ∨ token ≠ secret) →
      (ingest secret token logs queue).status = 401 ∧
      (ingest secret token logs queue).queue = queue ∧
      ∀ n, ingestIter secret token logs n queue = queue) ∧
    (truthyStr secret = true → token = secret →
      (logs = .absent ∨ logs = .notArray ∨ logs = .array []) →
      (ingest secret token logs queue).status = 202 ∧
      (ingest secret token logs queue).queue = queue) := by
  refine ⟨fun hs => ?_, fun hs ht => ?_, fun hs ht hl => ?_⟩
  · rw [ingest_secret_falsy secret token logs queue hs]
    exact ⟨rfl, rfl⟩
  · refine ⟨?_, ?_, ?_⟩
    · rw [ingest_bad_token secret token logs queue hs ht]
    · rw [ingest_bad_token secret token logs queue hs ht]
    · intro n
      induction n generalizing queue with
      | zero => rfl
      | succ n ih =>
        show ingestIter secret token logs n (ingest secret token logs queue).queue
          = queue
        rw [ingest_bad_token secret token logs queue hs ht]
        exact ih queue
  · rw [ingest_empty_logs secret token logs queue hs ht hl]
    exact ⟨rfl, rfl⟩

/-- Witness for `ingest_outcome_order_no_mutation`: each of the three
branches at a concrete input. -/
theorem ingest_outcome_order_no_mutation_witness :
    ((ingest none (some "x") .absent [sampleLog]).status = 500 ∧
      (ingest none (some "x") .absent [sampleLog]).queue = [sampleLog]) ∧
    ((ingest (some "S3CR3T") (some "wrong") .notArray [sampleLog]).status = 401 ∧
      (ingest (some "S3CR3T") (some "wrong") .notArray [sampleLog]).queue
        = [sampleLog] ∧
      ∀ n, ingestIter (some "S3CR3T") (some "wrong") .notArray n [sampleLog]
        = [sampleLog]) ∧
    ((ingest (some "S3CR3T") (some "S3CR3T") (.array []) [sampleLog]).status
        = 202 ∧
      (ingest (some "S3CR3T") (some "S3CR3T") (.array []) [sampleLog]).queue
        = [sampleLog]) :=
  ⟨(ingest_outcome_order_no_mutation none (some "x") .absent [sampleLog]).1 rfl,
   (ingest_outcome_order_no_mutation (some "S3CR3T") (some "wrong") .notArray
      [sampleLog]).2.1 (by decide) (Or.inr (by decide)),
   (ingest_outcome_order_no_mutation (some "S3CR3T") (some "S3CR3T") (.array [])
      [sampleLog]).2.2 (by decide) rfl (Or.inr (Or.inr rfl))⟩

/-- C9: an empty-string shared secret is treated exactly as an unset
one — every ingest request gets the 500 server-configuration outcome,
whatever the token (an empty-string token included), and the queue is
never mutated, also across repeated calls. -/
theorem empty_secret_always_500 (token : Option String) (logs : LogsField)
    (queue : List LogRecord) :
    (ingest (some "") token logs queue).status = 500 ∧
    (ingest (some "") token logs queue).queue = queue ∧
    (ingest none token logs queue).status = 500 ∧
    (ingest none token logs queue).queue = queue ∧
    (∀ n, ingestIter (some "") token logs n queue = queue) := by
  have hEmpty := ingest_secret_falsy (some "") token logs
  have hNone := ingest_secret_falsy none token logs
  refine ⟨?_, ?_, ?_, ?_, ?_⟩
  · rw [hEmpty queue (by decide)]
  · rw [hEmpty queue (by decide)]
  · rw [hNone queue rfl]
  · rw [hNone queue rfl]
  · intro n
    induction n generalizing queue with
    | zero => rfl
    | succ n ih =>
      show ingestIter (some "") token logs n
          (ingest (some "") token logs queue).queue = queue
      rw [hEmpty queue (by decide)]
      exact ih queue

/-- C3: a failed delivery tick leaves the queue exactly as it was:
with queue `[A, B]`, a failed attempt on the popped head `A` reinserts
it so the queue is `[A, B]` again; only the head is attempted on such
a tick, and as long as `A` keeps failing every subsequent tick
attempts `A` again and never touches `B`. -/
theorem failed_tick_preserves_queue (deliver : LogRecord → PostResult)
    (A B : LogRecord) (d : String) (h : deliver A = .failure d) :
    (∀ rest : List LogRecord,
      (processQueueTick deliver (A :: rest)).queue = A :: rest) ∧
    processQueueTick deliver [A, B] = ⟨[A, B], some A⟩ ∧
    (∀ n, tickIter deliver n [A, B] = [A, B]) ∧
    (∀ n, (processQueueTick deliver (tickIter deliver n [A, B])).attempted
      = some A) := by
  have hstep : ∀ rest : List LogRecord,
      processQueueTick deliver (A :: rest) = ⟨A :: rest, some A⟩ :=
    fun rest => processQueueTick_failure deliver A rest d h
  have hiter : ∀ n, tickIter deliver n [A, B] = [A, B] := by
    intro n
    induction n with
    | zero => rfl
    | succ n ih =>
      show tickIter deliver n (processQueueTick deliver [A, B]).queue = [A, B]
      rw [hstep [B]]
      exact ih
  refine ⟨fun rest => by rw [hstep rest], hstep [B], hiter, fun n => ?_⟩
  rw [hiter n, hstep [B]]

/-- Witness for `failed_tick_preserves_queue` with an always-failing
delivery function and two concrete records. -/
theorem failed_tick_preserves_queue_witness :
    (fun _ : LogRecord => PostResult.failure "Slack API error: 500 down") sampleLog
      = PostResult.failure "Slack API error: 500 down" ∧
    processQueueTick (fun _ => PostResult.failure "Slack API error: 500 down")
        [sampleLog, sampleLog2]
      = ⟨[sampleLog, sampleLog2], some sampleLog⟩ :=
  ⟨rfl, (failed_tick_preserves_queue
    (fun _ => PostResult.failure "Slack API error: 500 down")
    sampleLog sampleLog2 "Slack API error: 500 down" rfl).2.1⟩

/-- C5: the dispatcher never skips the head: a tick on an empty queue
mutates nothing, a tick on a non-empty queue attempts exactly the head
(removing it on success, restoring it on failure), and when every
delivery attempt fails each tick leaves the queue unchanged, so the
queue length never decreases along any interleaving of ingest calls
and ticks. -/
theorem dispatcher_attempts_exactly_head (deliver : LogRecord → PostResult) :
    processQueueTick deliver [] = ⟨[], none⟩ ∧
    (∀ (log : LogRecord) (rest : List LogRecord),
      (processQueueTick deliver (log :: rest)).attempted = some log ∧
      ((processQueueTick deliver (log :: rest)).queue = rest ∨
        (processQueueTick deliver (log :: rest)).queue = log :: rest)) ∧
    ((∀ l : LogRecord, ∃ d, deliver l = .failure d) →
      (∀ q : List LogRecord, (processQueueTick deliver q).queue = q) ∧
      ∀ (q : List LogRecord) (es : List QueueEvent),
        q.length ≤ (runEvents deliver q es).length) := by
  refine ⟨rfl, fun log rest => ?_, fun hf => ?_⟩
  · cases hd : deliver log with
    | success =>
      rw [processQueueTick_success deliver log rest hd]
      exact ⟨rfl, Or.inl rfl⟩
    | failure d =>
      rw [processQueueTick_failure deliver log rest d hd]
      exact ⟨rfl, Or.inr rfl⟩
  · refine ⟨processQueueTick_always_fails deliver hf, fun q es => ?_⟩
    induction es generalizing q with
    | nil => exact le_rfl
    | cons e es ih =>
      show q.length ≤ (runEvents deliver (applyEvent deliver q e) es).length
      refine le_trans ?_ (ih (applyEvent deliver q e))
      cases e with
      | ingestEv s t l => exact ingest_queue_monotone s t l q
      | tickEv =>
        rw [show applyEvent deliver q .tickEv
            = (processQueueTick deliver q).queue from rfl,
          processQueueTick_always_fails deliver hf q]

/-- Witness for `dispatcher_attempts_exactly_head`: with an
always-failing delivery the queue survives a run of an ingest event
and a tick. -/
theorem dispatcher_attempts_exactly_head_witness :
    ([sampleLog] : List LogRecord).length
      ≤ (runEvents (fun _ => PostResult.failure "down") [sampleLog]
          [QueueEvent.ingestEv (some "S3CR3T") (some "S3CR3T")
            (.array [sampleLog2]), QueueEvent.tickEv]).length :=
  ((dispatcher_attempts_exactly_head
      (fun _ => PostResult.failure "down")).2.2
    (fun _ => ⟨"down", rfl⟩)).2 [sampleLog]
    [QueueEvent.ingestEv (some "S3CR3T") (some "S3CR3T") (.array [sampleLog2]),
      QueueEvent.tickEv]

/-- C1 counterexample: with the webhook URL unset at dispatch time,
`postToSlack` resolves successfully without posting, so the tick drops
the popped record instead of reinserting it at the head — the queue
goes from one record to empty. -/
theorem missing_webhook_drops_record :
    postToSlack none okFetch sampleLog = PostResult.success ∧
    (processQueueTick (postToSlack none okFetch) [sampleLog]).queue = [] :=
  ⟨rfl, rfl⟩

/-- C1 amended: when the webhook URL is falsy at dispatch time the
delivery attempt is treated as a success and the popped record is
dropped from the queue (not reinserted); a record is reinserted at the
head and retried on every subsequent tick only when the webhook URL is
configured and the delivery attempt fails. -/
theorem missing_webhook_drop_vs_failure_requeue (webhook : Option String)
    (fetchResp : SlackMessage → FetchResponse) (log : LogRecord)
    (rest : List LogRecord) :
    (truthyStr webhook = false →
      postToSlack webhook fetchResp log = PostResult.success ∧
      processQueueTick (postToSlack webhook fetchResp) (log :: rest)
        = ⟨rest, some log⟩) ∧
    (truthyStr webhook = true →
      respOk (fetchResp (formatMessage log)) = false →
      (∃ d, postToSlack webhook fetchResp log = PostResult.failure d) ∧
      processQueueTick (postToSlack webhook fetchResp) (log :: rest)
        = ⟨log :: rest, some log⟩ ∧
      ∀ n, tickIter (postToSlack webhook fetchResp) n (log :: rest)
        = log :: rest) := by
  refine ⟨fun hw => ?_, fun hw hr => ?_⟩
  · have hpost : postToSlack webhook fetchResp log = PostResult.success := by
      simp [postToSlack, hw]
    exact ⟨hpost, processQueueTick_success _ log rest hpost⟩
  · have hpost : postToSlack webhook fetchResp log
        = PostResult.failure ("Slack API error: "
            ++ toString (fetchResp (formatMessage log)).status ++ " "
            ++ (fetchResp (formatMessage log)).body) := by
      simp [postToSlack, hw, hr]
    refine ⟨⟨_, hpost⟩, processQueueTick_failure _ log rest _ hpost, fun n => ?_⟩
    induction n with
    | zero => rfl
    | succ n ih =>
      show tickIter (postToSlack webhook fetchResp) n
          (processQueueTick (postToSlack webhook fetchResp) (log :: rest)).queue
        = log :: rest
      rw [processQueueTick_failure _ log rest _ hpost]
      exact ih

/-- Witness for `missing_webhook_drop_vs_failure_requeue`: the drop
branch with an unset webhook, and the requeue branch with a configured
webhook and a 500 response. -/
theorem missing_webhook_drop_vs_failure_requeue_witness :
    (postToSlack none okFetch sampleLog2 = PostResult.success ∧
      processQueueTick (postToSlack none okFetch) [sampleLog2]
        = ⟨[], some sampleLog2⟩) ∧
    (∃ d, postToSlack (some "https://hooks.example/x") badFetch sampleLog2
        = PostResult.failure d) ∧
    processQueueTick (postToSlack (some "https://hooks.example/x") badFetch)
        [sampleLog2]
      = ⟨[sampleLog2], some sampleLog2⟩ :=
  ⟨(missing_webhook_drop_vs_failure_requeue none okFetch sampleLog2 []).1 rfl,
   ((missing_webhook_drop_vs_failure_requeue (some "https://hooks.example/x")
      badFetch sampleLog2 []).2 (by decide) rfl).1,
   (((missing_webhook_drop_vs_failure_requeue (some "https://hooks.example/x")
      badFetch sampleLog2 []).2 (by decide) rfl).2).1⟩

/-- C6: the outbound payload is a single-field object whose text is
the newline-join of exactly the six `*Label:* value` lines for the
fields Action, Section, Display, CreatedByUser, AuditCreatedDate and
DelegateUser, in that order, each value being the rendered field
(`jsOrElse field "N/A"`): `N/A` is substituted for an absent field,
and a present non-empty field renders as its own value. -/
theorem formatMessage_six_lines (log : LogRecord) :
    (formatMessage log).text = String.intercalate "\n"
      ["*Action:* " ++ jsOrElse log.Action "N/A",
       "*Section:* " ++ jsOrElse log.Section "N/A",
       "*Display:* " ++ jsOrElse log.Display "N/A",
       "*Created By User:* " ++ jsOrElse log.CreatedByUser "N/A",
       "*Created Date:* " ++ jsOrElse log.AuditCreatedDate "N/A",
       "*Delegate User:* " ++ jsOrElse log.DelegateUser "N/A"] ∧
    (log.Action = none → jsOrElse log.Action "N/A" = "N/A") ∧
    (log.Section = none → jsOrElse log.Section "N/A" = "N/A") ∧
    (log.Display = none → jsOrElse log.Display "N/A" = "N/A") ∧
    (log.CreatedByUser = none → jsOrElse log.CreatedByUser "N/A" = "N/A") ∧
    (log.AuditCreatedDate = none → jsOrElse log.AuditCreatedDate "N/A" = "N/A") ∧
    (log.DelegateUser = none → jsOrElse log.DelegateUser "N/A" = "N/A") ∧
    (∀ s : String, s ≠ "" → jsOrElse (some s) "N/A" = s) ∧
    jsOrElse (none : Option String) "N/A" = "N/A" := by
  refine ⟨?_, ?_, ?_, ?_, ?_, ?_, ?_, fun s hs => ?_, rfl⟩
  · apply String.ext
    simp [formatMessage, String.intercalate, String.intercalate.go,
      String.data_append, List.append_assoc]
  · intro h; rw [h]; rfl
  · intro h; rw [h]; rfl
  · intro h; rw [h]; rfl
  · intro h; rw [h]; rfl
  · intro h; rw [h]; rfl
  · intro h; rw [h]; rfl
  · simp [jsOrElse, hs]

/-- C7: a non-2xx response from the channel makes `postToSlack` throw
(never resolve successfully), and the thrown description contains both
the response status and the response body. -/
theorem non2xx_response_is_failure (webhook : Option String)
    (fetchResp : SlackMessage → FetchResponse) (log : LogRecord)
    (hw : truthyStr webhook = true)
    (hr : respOk (fetchResp (formatMessage log)) = false) :
    postToSlack webhook fetchResp log ≠ PostResult.success ∧
    ∃ d, postToSlack webhook fetchResp log = PostResult.failure d ∧
      (∃ s t, d = s ++ toString (fetchResp (formatMessage log)).status ++ t) ∧
      (∃ s, d = s ++ (fetchResp (formatMessage log)).body) := by
  have hpost : postToSlack webhook fetchResp log
      = PostResult.failure ("Slack API error: "
          ++ toString (fetchResp (formatMessage log)).status ++ " "
          ++ (fetchResp (formatMessage log)).body) := by
    simp [postToSlack, hw, hr]
  refine ⟨by simp [hpost], _, hpost,
    ⟨"Slack API error: ", " " ++ (fetchResp (formatMessage log)).body, ?_⟩,
    ⟨"Slack API error: " ++ toString (fetchResp (formatMessage log)).status
      ++ " ", rfl⟩⟩
  rw [String.append_assoc, String.append_assoc]

/-- Witness for `non2xx_response_is_failure`: a 500 response on a
configured webhook. -/
theorem non2xx_response_is_failure_witness :
    postToSlack (some "https://hooks.example/y") badFetch sampleLog
      ≠ PostResult.success ∧
    ∃ d, postToSlack (some "https://hooks.example/y") badFetch sampleLog
        = PostResult.failure d ∧
      (∃ s t, d = s ++ toString (badFetch (formatMessage sampleLog)).status ++ t) ∧
      (∃ s, d = s ++ (badFetch (formatMessage sampleLog)).body) :=
  non2xx_response_is_failure (some "https://hooks.example/y") badFetch sampleLog
    (by decide) rfl

/-- C8 counterexample: with a non-empty queue and a delivery attempt
taking 5000 ms, the next run of the worker starts 6100 ms after the
current one, not one throttle interval — the cadence is not
independent of delivery latency. -/
theorem tick_cadence_depends_on_delivery :
    nextTickDelay [sampleLog] 5000 ≠ THROTTLE_DELAY_MS := by decide

/-- C8 amended: the next tick is scheduled unconditionally on every
tick, but the delay runs from the completion of the awaited delivery
attempt: on an empty queue the next run starts one interval later,
otherwise it starts the delivery duration plus one interval after the
current run began, and no timeout bounds that duration, so the gap
between ticks exceeds any given bound for a slow enough delivery. -/
theorem next_tick_scheduled_after_delivery (d : Nat) :
    nextTickDelay [] d = THROTTLE_DELAY_MS ∧
    (∀ (log : LogRecord) (rest : List LogRecord),
      nextTickDelay (log :: rest) d = d + THROTTLE_DELAY_MS) ∧
    (∀ (log : LogRecord) (bound : Nat),
      ∃ dur, bound < nextTickDelay [log] dur) := by
  refine ⟨rfl, fun log rest => rfl, fun log bound => ⟨bound, ?_⟩⟩
  show bound < bound + THROTTLE_DELAY_MS
  simp [THROTTLE_DELAY_MS]

/-- C10 counterexample: a field holding the literal string `N/A` is
present and truthy, yet the rendered value is `N/A`, so the claimed
equivalence fails in the only-if direction. -/
theorem na_literal_field_renders_na :
    jsOrElse (some "N/A") "N/A" = "N/A" ∧
    ¬((some "N/A" : Option String) = none
      ∨ (some "N/A" : Option String) = some "") := by
  decide

/-- C10 amended: a present-but-falsy (empty-string) field renders as
`N/A` exactly as an absent field does — a record with an empty field
formats identically to the same record with that field absent — and in
general the rendered value is `N/A` iff the field is absent, empty, or
itself the literal string `N/A`. -/
theorem falsy_field_renders_na (v : Option String) :
    ((v = none ∨ v = some "") → jsOrElse v "N/A" = "N/A") ∧
    (jsOrElse v "N/A" = "N/A" ↔
      (v = none ∨ v = some "" ∨ v = some "N/A")) ∧
    ∀ s d c t g : Option String,
      formatMessage ⟨some "", s, d, c, t, g⟩ = formatMessage ⟨none, s, d, c, t, g⟩ := by
  refine ⟨fun h => ?_, ?_, fun s d c t g => rfl⟩
  · rcases h with h | h <;> subst h <;> rfl
  · cases v with
    | none => simp [jsOrElse]
    | some s =>
      rcases eq_or_ne s "" with h | h
      · subst h; simp [jsOrElse]
      · simp [jsOrElse, h]

end DevOpsDream
